import Mathlib

/-!
# Verification of the `python-generators-0x00` lazy-streaming module

Shallow embedding of the row-streaming, batching, pagination and
age-aggregation code of this repository, together with proofs of the
specified properties.

Conventions of the embedding:
* a database table is a finite `List` of records, in SELECT order;
* Python dynamic values for the `age` field are an inductive `PyVal`,
  with a float's mathematical value modelled as a rational (every
  concrete value appearing in the spec and the code is exactly
  representable);
* a Python generator's observable behaviour is modelled by the list of
  values it yields; where a claim is about resource handling or raised
  errors, the run is modelled as a trace of acquire/release/raise
  events, hand-translated from the generator body's control flow
  (including `try`/`finally` semantics);
* fallible code returns `Except`/`Option`.
-/

namespace PyGen

/-! ## Python scalar values for the `age` field -/

/-- A Python value that can sit in a record's `age` field: an `int`, a
`float` (carrying its mathematical value as a rational), a `str`, or a
non-numeric object such as `None`. -/
inductive PyVal where
  | intV (n : ℤ)
  | floatV (q : ℚ)
  | strV (s : String)
  | noneV
  deriving DecidableEq, Repr

/-- A row of the `user_data` table as produced by the store
(`dictionary=True` cursor): fixed keys `user_id`, `name`, `email`,
`age`. -/
structure Rec where
  user_id : String
  name : String
  email : String
  age : PyVal
  deriving DecidableEq, Repr

/-! ## Python numeric string parsing (core literal forms)

  `int(s)` accepts an optional sign followed by decimal digits;
  `float(s)` accepts an optional sign, an integer part and an optional
  fractional part, at least one digit in total.  (Exponents, infinities
  and whitespace trimming are outside the inputs any claim touches.) -/

/-- Value of one decimal digit character. -/
def digitVal (c : Char) : Option ℕ :=
  if c.isDigit then some (c.toNat - 48) else none

/-- Accumulating value of a digit string; fails on a non-digit. -/
def digitsValAux : List Char → ℕ → Option ℕ
  | [], acc => some acc
  | c :: cs, acc =>
    match digitVal c with
    | some d => digitsValAux cs (acc * 10 + d)
    | none => none

/-- Value of a non-empty digit string. -/
def digitsVal (cs : List Char) : Option ℕ :=
  if cs.isEmpty then none else digitsValAux cs 0

/-- Strip an optional leading sign; return whether the value is negated
and the remaining characters. -/
def parseSign : List Char → Bool × List Char
  | '-' :: cs => (true, cs)
  | '+' :: cs => (false, cs)
  | cs => (false, cs)

/-- Python `int(s)` on a string: optional sign then decimal digits. -/
def parseIntStr (s : String) : Option ℤ :=
  let sc := parseSign s.data
  (digitsVal sc.2).map fun n => if sc.1 then -(n : ℤ) else (n : ℤ)

/-- Python `float(s)` on a string: optional sign, digits, optional
`.` followed by digits; at least one digit overall. -/
def parseFloatStr (s : String) : Option ℚ :=
  let sc := parseSign s.data
  let ip := sc.2.takeWhile Char.isDigit
  let rest := sc.2.dropWhile Char.isDigit
  let core : Option ℚ :=
    match rest with
    | [] =>
      if ip.isEmpty then none
      else (digitsValAux ip 0).map fun n => (n : ℚ)
    | '.' :: fr =>
      if fr.all Char.isDigit && !(ip.isEmpty && fr.isEmpty) then
        match digitsValAux ip 0, digitsValAux fr 0 with
        | some i, some f => some ((i : ℚ) + (f : ℚ) / (10 : ℚ) ^ fr.length)
        | _, _ => none
      else none
    | _ => none
  core.map fun q => if sc.1 then -q else q

/-- Truncation of a rational toward zero, as Python `int(float)` does. -/
def ratTrunc (q : ℚ) : ℤ :=
  q.num.sign * ((q.num.natAbs / q.den : ℕ) : ℤ)

/-- Python `int(x)`: identity on ints, truncation toward zero on
floats, decimal-integer parse on strings, `TypeError`/`ValueError`
(modelled as `none`) otherwise. -/
def pyInt : PyVal → Option ℤ
  | .intV n => some n
  | .floatV q => some (ratTrunc q)
  | .strV s => parseIntStr s
  | .noneV => none

/-- Python `float(x)`: exact on ints and floats, float-literal parse on
strings, error otherwise. -/
def pyFloat : PyVal → Option ℚ
  | .intV n => some (n : ℚ)
  | .floatV q => some q
  | .strV s => parseFloatStr s
  | .noneV => none

/-- Python `isinstance(x, int)`. -/
def isIntV : PyVal → Bool
  | .intV _ => true
  | _ => false

/-! ## `0-stream_users.py`: `stream_users` -/

/-- The per-row normalization inside `stream_users`:
`try: row["age"] = int(row["age"]) except Exception: pass`. -/
def normalizeAge (v : PyVal) : PyVal :=
  match pyInt v with
  | some n => .intV n
  | none => v

/-- Value stream of `stream_users()`: each underlying row is yielded
with its `age` field passed through `normalizeAge`. -/
def stream_users (rows : List Rec) : List Rec :=
  rows.map fun r => { r with age := normalizeAge r.age }

/-! ## `1-batch_processing.py`: `stream_users_in_batches` -/

/-- The accumulation loop of `stream_users_in_batches`: append each
user to `batch`, yield `batch` once `len(batch) >= batch_size`, and
after the loop yield the final non-empty remainder. -/
def batchLoop (batchSize : ℕ) (batch : List Rec) : List Rec → List (List Rec)
  | [] => if batch.isEmpty then [] else [batch]
  | u :: users =>
    if batchSize ≤ (batch ++ [u]).length then
      (batch ++ [u]) :: batchLoop batchSize [] users
    else batchLoop batchSize (batch ++ [u]) users

/-- `stream_users_in_batches(batch_size)` run to exhaustion over a
table `rows`: `ValueError` when `batch_size <= 0` (raised before any
store access), otherwise the list of yielded batches of the
`stream_users` sequence. -/
def stream_users_in_batches (rows : List Rec) (batchSize : ℤ) :
    Except String (List (List Rec)) :=
  if batchSize ≤ 0 then .error "ValueError: batch_size must be > 0"
  else .ok (batchLoop batchSize.toNat [] (stream_users rows))

/-! ## `1-batch_processing.py`: `batch_processing` -/

/-- The filter condition of the list comprehension in
`batch_processing`:
`(isinstance(a, int) and a > 25) or (not isinstance(a, int) and int(float(a)) > 25)`.
Evaluated left to right with short-circuiting; `int(float(a))` raises
(modelled as `.error`) when `float(a)` fails on a non-numeric value. -/
def filterPred (u : Rec) : Except String Bool :=
  if isIntV u.age then
    match u.age with
    | .intV n => .ok (decide (25 < n))
    | _ => .ok false
  else
    match pyFloat u.age with
    | some q => .ok (decide (25 < ratTrunc q))
    | none => .error "ValueError: could not convert to float"

/-- The list comprehension
`[u for u in batch if ...]`: elements tested left to right, kept in
order; the first coercion failure aborts with the error. -/
def filterBatch : List Rec → Except String (List Rec)
  | [] => .ok []
  | u :: rest =>
    match filterPred u with
    | .error e => .error e
    | .ok keep =>
      match filterBatch rest with
      | .error e => .error e
      | .ok tail => .ok (if keep then u :: tail else tail)

/-- One line of standard output of `batch_processing`: a printed
record or the blank separator line. -/
inductive OutLine where
  | recLine (u : Rec)
  | blank
  deriving DecidableEq, Repr

/-- Output of `batch_processing` on one batch: the filtered records in
order, each printed and followed by a blank line; the coercion error,
if any, propagates. -/
def processBatch (batch : List Rec) : Except String (List OutLine) :=
  (filterBatch batch).map fun fs => fs.flatMap fun u => [.recLine u, .blank]

/-- The reference predicate for which records pass the age filter when
every coercion succeeds: an integer age is compared directly, any other
age via truncation of its float parse. -/
def agePass (u : Rec) : Bool :=
  match u.age with
  | .intV n => decide (25 < n)
  | v =>
    match pyFloat v with
    | some q => decide (25 < ratTrunc q)
    | none => false

/-! ## `2-lazy_paginate.py` -/

/-- `paginate_users(page_size, offset)`: one bounded query
`SELECT * FROM user_data LIMIT page_size OFFSET offset` against the
table. -/
def paginate_users (table : List Rec) (pageSize offset : ℕ) : List Rec :=
  (table.drop offset).take pageSize

/-- The single loop of `lazy_pagination`: fetch the page at `offset`,
stop when it is empty, otherwise yield it and advance `offset` by
`page_size`. -/
def lazyPagLoop (table : List Rec) (pageSize offset : ℕ) :
    List (List Rec) :=
  if h : paginate_users table pageSize offset = [] then []
  else
    paginate_users table pageSize offset ::
      lazyPagLoop table pageSize (offset + pageSize)
termination_by table.length - offset
decreasing_by
  simp only [paginate_users, List.take_eq_nil_iff] at h
  push_neg at h
  have hoff : offset < table.length := by
    by_contra hge
    exact h.2 (List.drop_eq_nil_of_le (le_of_not_lt hge))
  have hps : 0 < pageSize := Nat.pos_of_ne_zero h.1
  omega

/-- `lazy_pagination(page_size)`: the loop started at offset `0`. -/
def lazy_pagination (table : List Rec) (pageSize : ℕ) : List (List Rec) :=
  lazyPagLoop table pageSize 0

/-! ## `4-stream_ages.py` -/

/-- `stream_user_ages()` value stream: one integer age per row of the
scalar projection `SELECT age FROM user_data` (`int(age)` on a
`DECIMAL(5,0)` column value is exact). -/
def stream_user_ages (ages : List ℤ) : List ℤ := ages

/-- Floor of a rational (the denominator is positive, so flooring
integer division of numerator by denominator). -/
def ratFloor (q : ℚ) : ℤ :=
  q.num.fdiv (q.den : ℤ)

/-- Round a rational to the nearest integer, ties to even, as Python's
fixed-point formatting does. -/
def roundHalfEven (q : ℚ) : ℤ :=
  let f := ratFloor q
  let r := q - (f : ℚ)
  if r < 1 / 2 then f
  else if 1 / 2 < r then f + 1
  else if f % 2 = 0 then f else f + 1

/-- Render a rational with two-decimal precision, as `f"{x:.2f}"`
does (the float value is modelled exactly). -/
def formatFixed2 (q : ℚ) : String :=
  let n := roundHalfEven (q * 100)
  let sign := if n < 0 then "-" else ""
  let m := n.natAbs
  let fr := m % 100
  sign ++ toString (m / 100) ++ "." ++ (if fr < 10 then "0" else "") ++ toString fr

/-- The reduction loop of `compute_average_age`: running total and
count over the age stream. -/
def avgFold (ages : List ℤ) : ℤ × ℕ :=
  ages.foldl (fun tc a => (tc.1 + a, tc.2 + 1)) (0, 0)

/-- `compute_average_age()`: pulls every age, and reports either the
no-data message or the two-decimal average. -/
def compute_average_age (ages : List ℤ) : String :=
  let tc := avgFold (stream_user_ages ages)
  if tc.2 = 0 then "No user data found."
  else "Average age of users: " ++ formatFixed2 ((tc.1 : ℚ) / (tc.2 : ℚ))

/-! ## Resource and error traces

A run of a producer is modelled as the list of store-side events it
performs, hand-translated from each generator body's control flow,
including `try`/`except`/`finally` and `GeneratorExit` semantics:
when a consumer abandons a suspended generator, `GeneratorExit` is
raised at the suspended `yield`, so only `finally` blocks around that
yield still run. -/

/-- One observable store-side event of a producer run. -/
inductive Ev where
  | acqConn   -- a connection is opened
  | acqCursor -- a cursor is opened
  | execQuery -- a query is executed
  | yieldVal  -- a value is yielded to the consumer
  | relCursor -- a cursor is closed
  | relConn   -- a connection is closed
  | printErr  -- an error is printed (swallowed)
  | raiseErr  -- an error propagates to the consumer
  deriving DecidableEq, Repr

/-- Exit path of one iteration run of a single-query producer. -/
inductive Fate where
  | drained              -- the consumer iterates to exhaustion
  | stopped (k : ℕ)      -- the consumer abandons iteration after k values
  | connRefused          -- the store refuses the connection
  | queryFails (k : ℕ)   -- the store raises after k values were produced
  deriving DecidableEq, Repr

/-- `acquire` events. -/
def isAcq : Ev → Bool
  | .acqConn => true
  | .acqCursor => true
  | _ => false

/-- `release` events. -/
def isRel : Ev → Bool
  | .relConn => true
  | .relCursor => true
  | _ => false

/-- Store I/O events (anything touching the store). -/
def isStoreEv : Ev → Bool
  | .acqConn => true
  | .acqCursor => true
  | .execQuery => true
  | .relCursor => true
  | .relConn => true
  | _ => false

/-- Number of resource acquisitions in a trace. -/
def acqCount (t : List Ev) : ℕ := t.countP fun e => isAcq e

/-- Number of resource releases in a trace. -/
def relCount (t : List Ev) : ℕ := t.countP fun e => isRel e

/-- A trace is balanced when releases equal acquisitions. -/
def balanced (t : List Ev) : Bool := relCount t == acqCount t

/-- Trace of `stream_users()` over a table of `n` rows.  The body is
`try: connect; cursor; execute; for row in cursor: yield row`
with `except Error: raise` and a `finally` that closes the cursor and
the connection on every exit path, before any exception propagates.
A generator abandoned before its first resume has run no body code at
all, so closing it performs nothing; one abandoned after `1 ≤ k ≤ n`
values is closed while suspended at the `k`-th yield, where
`GeneratorExit` still runs the `finally` block; a consumer that pulls
past the `n` available values drives the body to completion. -/
def streamUsersTrace (n : ℕ) : Fate → List Ev
  | .drained =>
    [.acqConn, .acqCursor, .execQuery] ++ List.replicate n .yieldVal ++
      [.relCursor, .relConn]
  | .stopped k =>
    if k = 0 then []
    else if k ≤ n then
      -- GeneratorExit at the suspended yield still runs the finally block
      [.acqConn, .acqCursor, .execQuery] ++ List.replicate k .yieldVal ++
        [.relCursor, .relConn]
    else
      [.acqConn, .acqCursor, .execQuery] ++ List.replicate n .yieldVal ++
        [.relCursor, .relConn]
  | .connRefused =>
    -- `_connect_to_prodev` raises; cursor and conn are still None, so the
    -- finally block closes nothing; the error propagates
    [.raiseErr]
  | .queryFails k =>
    -- `except Error: raise`, then the finally closes both, then the
    -- error reaches the consumer
    [.acqConn, .acqCursor, .execQuery] ++ List.replicate (min k n) .yieldVal ++
      [.relCursor, .relConn, .raiseErr]

/-- Trace of `stream_users_in_batches(batch_size)` over `n` upstream
rows: the only store activity is the delegated `stream_users()` run;
with a non-positive `batch_size` the `ValueError` is raised on first
resume, before the inner generator is even created.  A consumer that
abandons the batch generator before its first resume triggers no body
code at all; one that abandons it after `k ≥ 1` batches closes it, and
the close propagates to the inner `stream_users()` generator, which by
then has produced `k * batch_size` values (or was drained building the
final partial batch). -/
def streamUsersInBatchesTrace (n : ℕ) (batchSize : ℤ) (fate : Fate) :
    List Ev :=
  match fate with
  | .stopped 0 => []
  | _ =>
    if batchSize ≤ 0 then [.raiseErr]
    else
      match fate with
      | .drained => streamUsersTrace n .drained
      | .stopped k => streamUsersTrace n (.stopped (k * batchSize.toNat))
      | .connRefused => streamUsersTrace n .connRefused
      | .queryFails k => streamUsersTrace n (.queryFails k)

/-- Trace of `stream_user_ages()` over `n` rows.  The body has **no**
`try`/`finally`: `cursor.close()` and `connection.close()` are plain
statements after the loop, and the connection comes from
`seed.connect_to_prodev`, which swallows connection errors and
returns `None`.  A generator abandoned before its first resume has
run no body code, so nothing is acquired; one abandoned after
`1 ≤ k ≤ n` values is closed while suspended at the `k`-th yield —
`GeneratorExit` is raised there and the close calls written after the
loop are never reached; only a consumer that pulls past the `n`
available values lets the loop finish and the close calls run. -/
def streamUserAgesTrace (n : ℕ) : Fate → List Ev
  | .drained =>
    [.acqConn, .acqCursor, .execQuery] ++ List.replicate n .yieldVal ++
      [.relCursor, .relConn]
  | .stopped k =>
    if k = 0 then []
    else if k ≤ n then
      -- GeneratorExit at the suspended yield: the close calls after the
      -- loop are never reached
      [.acqConn, .acqCursor, .execQuery] ++ List.replicate k .yieldVal
    else
      [.acqConn, .acqCursor, .execQuery] ++ List.replicate n .yieldVal ++
        [.relCursor, .relConn]
  | .connRefused =>
    -- connect_to_prodev prints and returns None; `None.cursor()` then
    -- raises AttributeError with no resource held
    [.printErr, .raiseErr]
  | .queryFails k =>
    -- no except/finally: the store error propagates past the close calls
    [.acqConn, .acqCursor, .execQuery] ++ List.replicate (min k n) .yieldVal ++
      [.raiseErr]

/-- Trace of `seed.stream_user_data(connection)` over `n` rows.  The
connection is owned by the caller; the producer opens only a cursor,
closed in its `finally` (which runs when a suspended generator is
closed, but not when the generator was never resumed: then no body
code has run and no cursor exists).  Store errors are caught by
`except Error: print(...)` — printed, not re-raised. -/
def streamUserDataTrace (n : ℕ) : Fate → List Ev
  | .drained =>
    [.acqCursor, .execQuery] ++ List.replicate n .yieldVal ++ [.relCursor]
  | .stopped k =>
    if k = 0 then []
    else if k ≤ n then
      [.acqCursor, .execQuery] ++ List.replicate k .yieldVal ++ [.relCursor]
    else
      [.acqCursor, .execQuery] ++ List.replicate n .yieldVal ++ [.relCursor]
  | .connRefused => []  -- the connection is created by the caller
  | .queryFails k =>
    [.acqCursor, .execQuery] ++ List.replicate (min k n) .yieldVal ++
      [.printErr, .relCursor]

/-- `seed.connect_to_prodev()`: returns the connection, or on a store
error prints it and returns `None` — it never raises. -/
def connect_to_prodev (storeUp : Bool) : List Ev × Option Unit :=
  if storeUp then ([.acqConn], some ())
  else ([.printErr], none)

/-- Trace of one successful `paginate_users` call: it opens and closes
its own connection and cursor. -/
def pagFetchOk : List Ev :=
  [.acqConn, .acqCursor, .execQuery, .relCursor, .relConn]

/-- Exit path of one `lazy_pagination` run; failures are tagged with
the index of the fetch call on which they occur. -/
inductive PagFate where
  | drained
  | stopped (k : ℕ)
  | fetchConnRefused (j : ℕ)
  | fetchQueryFails (j : ℕ)
  deriving DecidableEq, Repr

/-- Trace of `lazy_pagination(page_size)` over a table holding
`numPages` non-empty pages.  Draining performs `numPages + 1` fetches
(the last one returns the empty terminal page); a consumer that stops
after `k` pages has triggered exactly `min k numPages` fetches, each
already closed before its page was yielded.  `paginate_users` has no
`try`/`finally`: when its query raises, its connection and cursor are
not closed; when its connect fails, `connect_to_prodev` prints and
returns `None`, and `None.cursor()` raises with no resource held. -/
def lazyPaginationTrace (numPages : ℕ) : PagFate → List Ev
  | .drained => (List.replicate (numPages + 1) pagFetchOk).flatten
  | .stopped k => (List.replicate (min k numPages) pagFetchOk).flatten
  | .fetchConnRefused j =>
    (List.replicate (min j numPages) pagFetchOk).flatten ++
      [.printErr, .raiseErr]
  | .fetchQueryFails j =>
    (List.replicate (min j numPages) pagFetchOk).flatten ++
      [.acqConn, .acqCursor, .execQuery, .raiseErr]

/-! ## Generator call vs. first resume (`stream_users_in_batches`) -/

/-- The generator object returned by *calling*
`stream_users_in_batches(batch_size)`: the call only captures its
argument; none of the body runs until the first `next`. -/
structure BatchGen where
  batchSize : ℤ
  deriving DecidableEq, Repr

/-- Calling the generator function: total, never raises, performs no
store I/O — it merely builds the generator object. -/
def stream_users_in_batchesCall (batchSize : ℤ) : BatchGen :=
  ⟨batchSize⟩

/-- Result of resuming a generator once. -/
inductive FirstStep where
  | raised (msg : String)
  | yieldedB (batch : List Rec)
  | finished
  deriving DecidableEq, Repr

/-- First resume of a `stream_users_in_batches` generator over a table
`rows`: runs the body to its first yield, raise or return, reporting
the store events performed on the way.  The `batch_size` guard fires
before the inner `stream_users()` generator is created. -/
def firstNext (rows : List Rec) (g : BatchGen) : List Ev × FirstStep :=
  if g.batchSize ≤ 0 then
    ([], .raised "ValueError: batch_size must be > 0")
  else
    let users := stream_users rows
    if g.batchSize.toNat ≤ users.length then
      -- the buffer reaches batch_size while the cursor is still open
      ([.acqConn, .acqCursor, .execQuery],
        .yieldedB (users.take g.batchSize.toNat))
    else if users.isEmpty then
      ([.acqConn, .acqCursor, .execQuery, .relCursor, .relConn], .finished)
    else
      -- upstream exhausted first; the final short batch is yielded
      ([.acqConn, .acqCursor, .execQuery, .relCursor, .relConn],
        .yieldedB users)

/-! ## Sample data for concrete checks -/

/-- A sample record with a given id and age value. -/
def mkRec (uid : String) (a : PyVal) : Rec :=
  { user_id := uid, name := "User " ++ uid, email := uid ++ "@example.com",
    age := a }

/-- The three-row table used by several of the spec's concrete tests
(ages 20, 26, 25). -/
def sampleRows : List Rec :=
  [mkRec "a" (.intV 20), mkRec "b" (.intV 26), mkRec "c" (.intV 25)]

/-! # Theorems -/

/-- Auxiliary: the concatenation of the batches produced by the
accumulation loop restores the input, provided the carried buffer is
still below the threshold. -/
theorem batchLoop_flatten (bs : ℕ) (hbs : 0 < bs) :
    ∀ (xs acc : List Rec), acc.length < bs →
      (batchLoop bs acc xs).flatten = acc ++ xs := by
  intro xs
  induction xs with
  | nil =>
    intro acc _
    by_cases h : acc.isEmpty
    · simp [batchLoop, h, List.isEmpty_iff.mp h]
    · simp [batchLoop, h]
  | cons u us ih =>
    intro acc hacc
    by_cases h : bs ≤ (acc ++ [u]).length
    · have h' : bs ≤ acc.length + 1 := by simpa using h
      have h0 : ([] : List Rec).length < bs := by simpa using hbs
      simp [batchLoop, h', ih [] h0]
    · push_neg at h
      simp only [batchLoop, if_neg (not_le.mpr h)]
      rw [ih (acc ++ [u]) h]
      simp

/-- Auxiliary: every batch produced by the loop is non-empty, and
every batch other than the last has length exactly `bs`. -/
theorem batchLoop_parts (bs : ℕ) (hbs : 0 < bs) :
    ∀ (xs acc : List Rec), acc.length < bs →
      (∀ b ∈ (batchLoop bs acc xs).dropLast, b.length = bs) ∧
      (∀ b ∈ batchLoop bs acc xs, b ≠ []) := by
  intro xs
  induction xs with
  | nil =>
    intro acc _
    by_cases h : acc.isEmpty
    · simp [batchLoop, h]
    · refine ⟨by simp [batchLoop, h], ?_⟩
      intro b hb
      simp [batchLoop, h] at hb
      subst hb
      simpa [List.isEmpty_iff] using h
  | cons u us ih =>
    intro acc hacc
    by_cases h : bs ≤ (acc ++ [u]).length
    · have h0 : ([] : List Rec).length < bs := by simpa using hbs
      have hlen : (acc ++ [u]).length = bs := by
        simp only [List.length_append, List.length_singleton] at h ⊢
        omega
      obtain ⟨ihl, ihne⟩ := ih [] h0
      simp only [batchLoop, if_pos h]
      constructor
      · intro b hb
        rcases hrest : batchLoop bs [] us with _ | ⟨r, rs⟩
        · simp [hrest] at hb
        · rw [hrest] at hb
          rw [List.dropLast_cons₂] at hb
          rcases List.mem_cons.mp hb with hb | hb
          · subst hb; exact hlen
          · exact ihl b (by rw [hrest]; exact hb)
      · intro b hb
        rcases List.mem_cons.mp hb with hb | hb
        · subst hb; simp
        · exact ihne b hb
    · push_neg at h
      simpa only [batchLoop, if_neg (not_le.mpr h)] using ih (acc ++ [u]) h

/-- C1: for every positive `batch_size` and every finite upstream
sequence, `stream_users_in_batches` yields batches whose concatenation
is the upstream `stream_users` sequence in order, every batch except
possibly the last has length exactly `batch_size`, and no yielded
batch is empty. -/
theorem stream_users_in_batches_correct (rows : List Rec) (batchSize : ℤ)
    (hbs : 0 < batchSize) :
    ∃ batches, stream_users_in_batches rows batchSize = .ok batches ∧
      batches.flatten = stream_users rows ∧
      (∀ b ∈ batches.dropLast, (b.length : ℤ) = batchSize) ∧
      (∀ b ∈ batches, b ≠ []) := by
  have hn : 0 < batchSize.toNat := by omega
  refine ⟨batchLoop batchSize.toNat [] (stream_users rows), ?_, ?_, ?_, ?_⟩
  · simp [stream_users_in_batches, not_le.mpr hbs]
  · simpa using batchLoop_flatten batchSize.toNat hn (stream_users rows) [] (by simpa using hn)
  · intro b hb
    have := (batchLoop_parts batchSize.toNat hn (stream_users rows) []
      (by simpa using hn)).1 b hb
    omega
  · exact (batchLoop_parts batchSize.toNat hn (stream_users rows) []
      (by simpa using hn)).2

/-- Witness for C1 at the three-row sample table and batch size 2. -/
theorem stream_users_in_batches_correct_witness :
    (0 : ℤ) < 2 ∧
      ∃ batches, stream_users_in_batches sampleRows 2 = .ok batches ∧
        batches.flatten = stream_users sampleRows ∧
        (∀ b ∈ batches.dropLast, (b.length : ℤ) = 2) ∧
        (∀ b ∈ batches, b ≠ []) :=
  ⟨by decide, stream_users_in_batches_correct sampleRows 2 (by decide)⟩

/-- Auxiliary: the `i`-th page yielded by the pagination loop started
at `offset` is exactly the (non-empty) page fetched at offset
`offset + i * pageSize`. -/
theorem lazyPagLoop_get (table : List Rec) (P : ℕ) :
    ∀ (i offset : ℕ), i < (lazyPagLoop table P offset).length →
      (lazyPagLoop table P offset)[i]? =
          some (paginate_users table P (offset + i * P)) ∧
        paginate_users table P (offset + i * P) ≠ [] := by
  intro i
  induction i with
  | zero =>
    intro offset h
    by_cases hp : paginate_users table P offset = []
    · rw [lazyPagLoop] at h
      simp [hp] at h
    · rw [lazyPagLoop]
      simp [hp]
  | succ i ih =>
    intro offset h
    by_cases hp : paginate_users table P offset = []
    · rw [lazyPagLoop] at h
      simp [hp] at h
    · rw [lazyPagLoop] at h ⊢
      simp only [hp, dif_neg, not_false_iff, List.length_cons] at h
      have h2 : i < (lazyPagLoop table P (offset + P)).length :=
        Nat.lt_of_succ_lt_succ h
      have hrec := ih (offset + P) h2
      have harith : offset + P + i * P = offset + (i + 1) * P := by ring
      rw [harith] at hrec
      simp only [dif_neg hp, List.getElem?_cons_succ]
      exact hrec

/-- Auxiliary: the pagination loop stops exactly at the first empty
fetch: the fetch just past the yielded pages is empty. -/
theorem lazyPagLoop_stop (table : List Rec) (P : ℕ) :
    ∀ (fuel offset : ℕ), table.length ≤ offset + fuel →
      paginate_users table P
        (offset + (lazyPagLoop table P offset).length * P) = [] := by
  intro fuel
  induction fuel with
  | zero =>
    intro offset hf
    have hp : paginate_users table P offset = [] := by
      simp [paginate_users, List.drop_eq_nil_of_le (by omega : table.length ≤ offset)]
    rw [lazyPagLoop]
    simpa [hp] using hp
  | succ fuel ih =>
    intro offset hf
    by_cases hp : paginate_users table P offset = []
    · rw [lazyPagLoop]
      simpa [hp] using hp
    · have hoff : offset < table.length ∧ 0 < P := by
        constructor
        · by_contra hge
          exact hp (by
            simp [paginate_users,
              List.drop_eq_nil_of_le (le_of_not_lt hge)])
        · by_contra hge
          exact hp (by
            simp [paginate_users, Nat.eq_zero_of_not_pos hge])
      conv in lazyPagLoop table P offset => rw [lazyPagLoop]
      simp only [hp, dif_neg, not_false_iff, List.length_cons]
      have := ih (offset + P) (by omega)
      calc paginate_users table P
            (offset + ((lazyPagLoop table P (offset + P)).length + 1) * P)
          = paginate_users table P
            ((offset + P) + (lazyPagLoop table P (offset + P)).length * P) := by
            ring_nf
        _ = [] := this

/-- Auxiliary: a page whose successor fetch (one `pageSize` further) is
non-empty has length exactly `pageSize`. -/
theorem paginate_full_of_next_nonempty (table : List Rec) (P o : ℕ)
    (hnext : paginate_users table P (o + P) ≠ []) :
    (paginate_users table P o).length = P := by
  have hlen : o + P < table.length := by
    by_contra hge
    exact hnext (by
      simp [paginate_users, List.drop_eq_nil_of_le (le_of_not_lt hge)])
  simp [paginate_users]
  omega

/-- C2: for positive `page_size`, `lazy_pagination` yields, in order,
exactly the non-empty pages fetched at offsets `0, P, 2P, …`; no
yielded page is empty; every yielded page except possibly the last has
length exactly `page_size`; and the fetch just past the last yielded
page — the first empty one — stops the iteration. -/
theorem lazy_pagination_correct (table : List Rec) (pageSize : ℕ)
    (hps : 0 < pageSize) :
    (∀ i : ℕ, i < (lazy_pagination table pageSize).length →
        (lazy_pagination table pageSize)[i]? =
            some (paginate_users table pageSize (i * pageSize)) ∧
          paginate_users table pageSize (i * pageSize) ≠ []) ∧
      (∀ i : ℕ, i + 1 < (lazy_pagination table pageSize).length →
        (paginate_users table pageSize (i * pageSize)).length = pageSize) ∧
      paginate_users table pageSize
        ((lazy_pagination table pageSize).length * pageSize) = [] := by
  have hp0 : 0 < pageSize := hps
  refine ⟨?_, ?_, ?_⟩
  · intro i h
    have := lazyPagLoop_get table pageSize i 0 h
    simpa [lazy_pagination] using this
  · intro i h
    have hnext := lazyPagLoop_get table pageSize (i + 1) 0
      (by simpa [lazy_pagination] using h)
    have hnext2 : paginate_users table pageSize
        (i * pageSize + pageSize) ≠ [] := by
      have := hnext.2
      have harith : 0 + (i + 1) * pageSize = i * pageSize + pageSize := by ring
      rwa [harith] at this
    exact paginate_full_of_next_nonempty table pageSize (i * pageSize) hnext2
  · have := lazyPagLoop_stop table pageSize table.length 0 (by omega)
    simpa [lazy_pagination] using this

/-- Witness for C2 at the three-row sample table and page size 2. -/
theorem lazy_pagination_correct_witness :
    0 < 2 ∧
      ((∀ i : ℕ, i < (lazy_pagination sampleRows 2).length →
          (lazy_pagination sampleRows 2)[i]? =
              some (paginate_users sampleRows 2 (i * 2)) ∧
            paginate_users sampleRows 2 (i * 2) ≠ []) ∧
        (∀ i : ℕ, i + 1 < (lazy_pagination sampleRows 2).length →
          (paginate_users sampleRows 2 (i * 2)).length = 2) ∧
        paginate_users sampleRows 2
          ((lazy_pagination sampleRows 2).length * 2) = []) :=
  ⟨by decide, lazy_pagination_correct sampleRows 2 (by decide)⟩

/-- Auxiliary: when the filter condition evaluates without raising,
its value is the reference predicate `agePass`. -/
theorem filterPred_ok (u : Rec) (b : Bool) (h : filterPred u = .ok b) :
    b = agePass u := by
  obtain ⟨uid, nm, em, a⟩ := u
  cases a with
  | intV n =>
    have heq : filterPred ⟨uid, nm, em, .intV n⟩ =
        .ok (decide (25 < n)) := rfl
    rw [heq] at h
    injection h with h
    exact h.symm
  | floatV q =>
    have heq : filterPred ⟨uid, nm, em, .floatV q⟩ =
        .ok (decide (25 < ratTrunc q)) := rfl
    rw [heq] at h
    injection h with h
    exact h.symm
  | strV s =>
    have heq : filterPred ⟨uid, nm, em, .strV s⟩ =
        (match parseFloatStr s with
          | some q => .ok (decide (25 < ratTrunc q))
          | none => .error "ValueError: could not convert to float") := rfl
    have ha : agePass ⟨uid, nm, em, .strV s⟩ =
        (match parseFloatStr s with
          | some q => decide (25 < ratTrunc q)
          | none => false) := rfl
    cases hp : parseFloatStr s with
    | none =>
      rw [heq, hp] at h
      simp at h
    | some q =>
      rw [heq, hp] at h
      injection h with h
      rw [ha, hp]
      exact h.symm
  | noneV =>
    have heq : filterPred ⟨uid, nm, em, .noneV⟩ =
        .error "ValueError: could not convert to float" := rfl
    rw [heq] at h
    simp at h

/-- Auxiliary: the only error the filter condition can raise is the
float-conversion `ValueError`. -/
theorem filterPred_error (u : Rec) (e : String)
    (h : filterPred u = .error e) :
    e = "ValueError: could not convert to float" ∧
      isIntV u.age = false ∧ pyFloat u.age = none := by
  obtain ⟨uid, nm, em, a⟩ := u
  cases a with
  | intV n =>
    have heq : filterPred ⟨uid, nm, em, .intV n⟩ =
        .ok (decide (25 < n)) := rfl
    rw [heq] at h
    simp at h
  | floatV q =>
    have heq : filterPred ⟨uid, nm, em, .floatV q⟩ =
        .ok (decide (25 < ratTrunc q)) := rfl
    rw [heq] at h
    simp at h
  | strV s =>
    have heq : filterPred ⟨uid, nm, em, .strV s⟩ =
        (match parseFloatStr s with
          | some q => .ok (decide (25 < ratTrunc q))
          | none => .error "ValueError: could not convert to float") := rfl
    cases hp : parseFloatStr s with
    | none =>
      rw [heq, hp] at h
      injection h with h
      exact ⟨h.symm, rfl, hp⟩
    | some q =>
      rw [heq, hp] at h
      simp at h
  | noneV =>
    have heq : filterPred ⟨uid, nm, em, .noneV⟩ =
        .error "ValueError: could not convert to float" := rfl
    rw [heq] at h
    injection h with h
    exact ⟨h.symm, rfl, rfl⟩

/-- Auxiliary: a successful run of the filter comprehension returns
exactly the sublist selected by `agePass`, in order. -/
theorem filterBatch_ok :
    ∀ (l fs : List Rec), filterBatch l = .ok fs →
      fs = l.filter fun u => agePass u := by
  intro l
  induction l with
  | nil =>
    intro fs h
    injection h with h
    simp [← h]
  | cons u rest ih =>
    intro fs h
    simp only [filterBatch] at h
    cases hp : filterPred u with
    | error e => rw [hp] at h; simp at h
    | ok keep =>
      rw [hp] at h
      cases hr : filterBatch rest with
      | error e => rw [hr] at h; simp at h
      | ok tail =>
        rw [hr] at h
        injection h with h
        have hk := filterPred_ok u keep hp
        have ht := ih tail hr
        subst hk
        rw [List.filter_cons]
        cases hpass : agePass u with
        | true => rw [hpass] at h; simp [hpass, ← h, ht]
        | false => rw [hpass] at h; simp [hpass, ← h, ht]

/-- C6: on every batch whose age values all coerce, `batch_processing`
emits exactly the records whose age exceeds 25 (integer ages compared
directly, other ages via truncation of their float parse), each
followed by a blank separator line, preserving within-batch order; on
the sample batch with ages 20, 26 and 25 exactly the age-26 record is
emitted. -/
theorem batch_processing_filter (batch fs : List Rec)
    (h : filterBatch batch = .ok fs) :
    fs = batch.filter (fun u => agePass u) ∧
      processBatch batch = .ok (fs.flatMap fun u => [.recLine u, .blank]) ∧
      processBatch sampleRows =
        .ok [.recLine (mkRec "b" (.intV 26)), .blank] := by
  refine ⟨filterBatch_ok batch fs h, ?_, ?_⟩
  · simp [processBatch, h, Except.map]
  · rfl

/-- Witness for C6 at the sample batch with ages 20, 26, 25. -/
theorem batch_processing_filter_witness :
    filterBatch sampleRows = .ok [mkRec "b" (.intV 26)] ∧
      ([mkRec "b" (.intV 26)] =
          sampleRows.filter (fun u => agePass u) ∧
        processBatch sampleRows =
          .ok ([mkRec "b" (.intV 26)].flatMap fun u => [.recLine u, .blank]) ∧
        processBatch sampleRows =
          .ok [.recLine (mkRec "b" (.intV 26)), .blank]) :=
  ⟨by rfl, batch_processing_filter sampleRows [mkRec "b" (.intV 26)] (by rfl)⟩

/-- Counterexample to C4: on a batch holding one record whose age is
the non-numeric string "twenty" — a value that fails numeric coercion
entirely — `batch_processing`'s filter raises a `ValueError` instead
of excluding the record and continuing. -/
theorem batch_processing_raises_on_malformed :
    isIntV (mkRec "x" (.strV "twenty")).age = false ∧
      pyFloat (mkRec "x" (.strV "twenty")).age = none ∧
      filterBatch [mkRec "x" (.strV "twenty")] =
        .error "ValueError: could not convert to float" ∧
      processBatch [mkRec "x" (.strV "twenty")] =
        .error "ValueError: could not convert to float" :=
  ⟨rfl, rfl, rfl, rfl⟩

/-- C4 amended: `batch_processing` raises on a malformed age value:
for every batch containing a record whose age fails numeric coercion
entirely, the filter comprehension propagates the `ValueError`; the
record is not merely excluded and processing of the batch does not
continue. -/
theorem batch_processing_malformed_fatal (batch : List Rec) (u : Rec)
    (hu : u ∈ batch) (hint : isIntV u.age = false)
    (hfl : pyFloat u.age = none) :
    filterBatch batch = .error "ValueError: could not convert to float" ∧
      processBatch batch =
        .error "ValueError: could not convert to float" := by
  have herr : filterPred u = .error "ValueError: could not convert to float" := by
    obtain ⟨uid, nm, em, a⟩ := u
    cases a with
    | intV n => simp [isIntV] at hint
    | floatV q => simp [pyFloat] at hfl
    | strV s =>
      have heq : filterPred ⟨uid, nm, em, .strV s⟩ =
          (match parseFloatStr s with
            | some q => .ok (decide (25 < ratTrunc q))
            | none => .error "ValueError: could not convert to float") := rfl
      have hps : parseFloatStr s = none := hfl
      rw [heq, hps]
    | noneV => rfl
  have hmain : filterBatch batch =
      .error "ValueError: could not convert to float" := by
    induction batch with
    | nil => cases hu
    | cons v rest ih =>
      rcases List.mem_cons.mp hu with hv | hv
      · subst hv
        simp [filterBatch, herr]
      · cases hp : filterPred v with
        | error e =>
          have he := (filterPred_error v e hp).1
          subst he
          simp [filterBatch, hp]
        | ok keep =>
          simp [filterBatch, hp, ih hv]
  exact ⟨hmain, by simp [processBatch, hmain, Except.map]⟩

/-- Witness for the amended C4 at a singleton batch with a
string-valued, unparseable age. -/
theorem batch_processing_malformed_fatal_witness :
    (mkRec "x" (.strV "twenty") ∈ [mkRec "x" (.strV "twenty")] ∧
        isIntV (mkRec "x" (.strV "twenty")).age = false ∧
        pyFloat (mkRec "x" (.strV "twenty")).age = none) ∧
      filterBatch [mkRec "x" (.strV "twenty")] =
          .error "ValueError: could not convert to float" ∧
        processBatch [mkRec "x" (.strV "twenty")] =
          .error "ValueError: could not convert to float" :=
  ⟨⟨by decide, by decide, by decide⟩,
    batch_processing_malformed_fatal [mkRec "x" (.strV "twenty")]
      (mkRec "x" (.strV "twenty")) (by decide) (by decide) (by decide)⟩

/-- Auxiliary: the reduction loop keeps exactly the running total and
the running count of the consumed ages. -/
theorem avgFold_spec (ages : List ℤ) :
    avgFold ages = (ages.sum, ages.length) := by
  have hgen : ∀ (l : List ℤ) (t : ℤ) (c : ℕ),
      l.foldl (fun tc a => (tc.1 + a, tc.2 + 1)) (t, c) =
        (t + l.sum, c + l.length) := by
    intro l
    induction l with
    | nil => intro t c; simp
    | cons a l ih =>
      intro t c
      simp only [List.foldl_cons, List.sum_cons, List.length_cons, ih,
        Prod.mk.injEq]
      omega
  simpa [avgFold] using hgen ages 0 0

/-- C7: `stream_users` yields each row with the age field coerced to
an integer when `int(·)` succeeds, and with the raw value passed
through unchanged (no error raised) when it fails; in particular the
string "30" and the float 30.0 both normalize to the integer 30. -/
theorem stream_users_age_coercion (rows : List Rec) (i : ℕ) (r : Rec)
    (h : rows[i]? = some r) :
    (stream_users rows).length = rows.length ∧
      (stream_users rows)[i]? = some { r with age := normalizeAge r.age } ∧
      ((∃ n, pyInt r.age = some n ∧ normalizeAge r.age = .intV n) ∨
        (pyInt r.age = none ∧ normalizeAge r.age = r.age)) ∧
      normalizeAge (.strV "30") = .intV 30 ∧
      normalizeAge (.floatV 30) = .intV 30 := by
  refine ⟨by simp [stream_users], ?_, ?_, by rfl, by rfl⟩
  · simp [stream_users, List.getElem?_map, h]
  · cases hn : pyInt r.age with
    | some n => exact Or.inl ⟨n, rfl, by simp [normalizeAge, hn]⟩
    | none => exact Or.inr ⟨rfl, by simp [normalizeAge, hn]⟩

/-- Witness for C7 at a one-row table whose age is the string "30". -/
theorem stream_users_age_coercion_witness :
    [mkRec "s" (.strV "30")][0]? = some (mkRec "s" (.strV "30")) ∧
      ((stream_users [mkRec "s" (.strV "30")]).length =
          [mkRec "s" (.strV "30")].length ∧
        (stream_users [mkRec "s" (.strV "30")])[0]? =
          some { mkRec "s" (.strV "30") with
                  age := normalizeAge (mkRec "s" (.strV "30")).age } ∧
        ((∃ n, pyInt (mkRec "s" (.strV "30")).age = some n ∧
            normalizeAge (mkRec "s" (.strV "30")).age = .intV n) ∨
          (pyInt (mkRec "s" (.strV "30")).age = none ∧
            normalizeAge (mkRec "s" (.strV "30")).age =
              (mkRec "s" (.strV "30")).age)) ∧
        normalizeAge (.strV "30") = .intV 30 ∧
        normalizeAge (.floatV 30) = .intV 30) :=
  ⟨by rfl, stream_users_age_coercion [mkRec "s" (.strV "30")] 0
    (mkRec "s" (.strV "30")) (by rfl)⟩

/-- Auxiliary: the floor of an integer-valued rational is that
integer. -/
theorem ratFloor_intCast (z : ℤ) : ratFloor (z : ℚ) = z := by
  simp [ratFloor, Rat.num_intCast, Rat.den_intCast, Int.fdiv_one]

/-- Auxiliary: rounding an integer-valued rational is the identity. -/
theorem roundHalfEven_intCast (z : ℤ) : roundHalfEven (z : ℚ) = z := by
  simp [roundHalfEven, ratFloor_intCast]

/-- Auxiliary: the report for the sample ages 20, 30, 25. -/
theorem compute_average_age_sample :
    compute_average_age [20, 30, 25] = "Average age of users: 25.00" := by
  have hsum : ([20, 30, 25] : List ℤ).sum = 75 := rfl
  have hlen : ([20, 30, 25] : List ℤ).length = 3 := rfl
  simp only [compute_average_age, stream_user_ages, avgFold_spec, hsum, hlen]
  have hq : ((75 : ℤ) : ℚ) / ((3 : ℕ) : ℚ) = ((25 : ℤ) : ℚ) := by norm_num
  rw [if_neg (by norm_num), hq]
  have h100 : ((25 : ℤ) : ℚ) * 100 = ((2500 : ℤ) : ℚ) := by push_cast; ring
  simp only [formatFixed2, h100, roundHalfEven_intCast]
  decide

/-- C8: `compute_average_age` reduces the age stream to a running sum
and count; with zero rows it reports the no-data message (no division
is performed), otherwise the arithmetic mean rendered with two-decimal
precision; on ages [20, 30, 25] it reports 25.00. -/
theorem compute_average_age_spec (ages : List ℤ) :
    (ages = [] → compute_average_age ages = "No user data found.") ∧
      (ages ≠ [] →
        (avgFold (stream_user_ages ages)).2 ≠ 0 ∧
          compute_average_age ages =
            "Average age of users: " ++
              formatFixed2 ((ages.sum : ℚ) / (ages.length : ℚ))) ∧
      compute_average_age [20, 30, 25] = "Average age of users: 25.00" := by
  refine ⟨?_, ?_, compute_average_age_sample⟩
  · intro h
    subst h
    rfl
  · intro h
    have hlen : ages.length ≠ 0 := by
      simpa [List.length_eq_zero] using h
    constructor
    · simpa [stream_user_ages, avgFold_spec] using hlen
    · simp [compute_average_age, stream_user_ages, avgFold_spec, hlen]

/-- Witness for C8 at the empty age stream and at ages [20, 30, 25]. -/
theorem compute_average_age_spec_witness :
    compute_average_age [] = "No user data found." ∧
      compute_average_age [20, 30, 25] = "Average age of users: 25.00" :=
  ⟨(compute_average_age_spec []).1 rfl,
    (compute_average_age_spec [20, 30, 25]).2.2⟩

/-- Auxiliary: `countP` over a replicated element. -/
theorem countP_replicate_ev (p : Ev → Bool) (n : ℕ) (a : Ev) :
    (List.replicate n a).countP p = if p a then n else 0 := by
  induction n with
  | zero => simp
  | succ n ih =>
    cases hpa : p a <;>
      simp [List.replicate_succ, List.countP_cons, ih, hpa]

/-- Auxiliary: `countP` over a flattened replication of one block. -/
theorem countP_flatten_replicate (p : Ev → Bool) (m : ℕ) (l : List Ev) :
    ((List.replicate m l).flatten).countP p = m * l.countP p := by
  induction m with
  | zero => simp
  | succ m ih =>
    simp [List.replicate_succ, List.countP_append, ih]
    ring

/-- Counterexample to C3: a consumer of `stream_user_ages` that stops
after one of two available values leaves the generator suspended at a
yield; closing it raises `GeneratorExit` there, and — the cleanup
being written after the loop, not in a `finally` block — neither the
cursor nor the connection is released, so releases (0) do not equal
acquisitions (2).  Likewise, when `lazy_pagination`'s second page
fetch fails at the query, `paginate_users` (which has no
`try`/`finally`) leaves that fetch's connection and cursor unreleased:
4 acquisitions, 2 releases. -/
theorem stream_user_ages_leaks_on_early_stop :
    (acqCount (streamUserAgesTrace 2 (.stopped 1)) = 2 ∧
      relCount (streamUserAgesTrace 2 (.stopped 1)) = 0 ∧
      balanced (streamUserAgesTrace 2 (.stopped 1)) = false) ∧
      (acqCount (lazyPaginationTrace 1 (.fetchQueryFails 1)) = 4 ∧
        relCount (lazyPaginationTrace 1 (.fetchQueryFails 1)) = 2 ∧
        balanced (lazyPaginationTrace 1 (.fetchQueryFails 1)) = false) := by
  decide

/-- C3 amended: the release-equals-acquisition guarantee holds for
`stream_users` and `stream_users_in_batches` on every exit path, and
for `lazy_pagination` on normal exhaustion, early termination and
connection refusal; but `lazy_pagination` leaks its page connection
and cursor when a page query fails, and `stream_user_ages` leaks its
connection and cursor both on early consumer termination (abandoned
while suspended at a yield, after between 1 and n of the n available
values) and on a query failure — it releases only when the loop runs
to completion.  A generator abandoned before its first resume has run
no body code, so it has acquired (and owes) nothing.
`seed.stream_user_data` (whose only owned resource is its cursor)
releases on every exit path. -/
theorem resource_release_by_producer (n k j numPages : ℕ)
    (batchSize : ℤ) :
    (∀ fate : Fate, balanced (streamUsersTrace n fate) = true) ∧
      (∀ fate : Fate,
        balanced (streamUsersInBatchesTrace n batchSize fate) = true) ∧
      (∀ fate : Fate, balanced (streamUserDataTrace n fate) = true) ∧
      balanced (lazyPaginationTrace numPages .drained) = true ∧
      balanced (lazyPaginationTrace numPages (.stopped k)) = true ∧
      balanced (lazyPaginationTrace numPages (.fetchConnRefused j)) = true ∧
      balanced (lazyPaginationTrace numPages (.fetchQueryFails j)) = false ∧
      balanced (streamUserAgesTrace n .drained) = true ∧
      balanced (streamUserAgesTrace n (.stopped 0)) = true ∧
      (1 ≤ k → k ≤ n → balanced (streamUserAgesTrace n (.stopped k)) = false) ∧
      (n < k → balanced (streamUserAgesTrace n (.stopped k)) = true) ∧
      balanced (streamUserAgesTrace n (.queryFails k)) = false := by
  have hsu : ∀ fate : Fate, balanced (streamUsersTrace n fate) = true := by
    intro fate
    cases fate with
    | stopped k =>
      by_cases hk0 : k = 0
      · simp [streamUsersTrace, hk0, balanced, acqCount, relCount]
      · by_cases hkn : k ≤ n <;>
          simp [streamUsersTrace, hk0, hkn, balanced, acqCount, relCount,
            List.countP_append, countP_replicate_ev, List.countP_cons,
            isAcq, isRel]
    | _ =>
      simp [streamUsersTrace, balanced, acqCount, relCount,
        List.countP_append, countP_replicate_ev, List.countP_cons,
        isAcq, isRel]
  refine ⟨hsu, ?_, ?_, ?_, ?_, ?_, ?_, ?_, ?_, ?_, ?_, ?_⟩
  · intro fate
    cases fate with
    | stopped k =>
      cases k with
      | zero =>
        simp [streamUsersInBatchesTrace, balanced, acqCount, relCount]
      | succ k =>
        by_cases hbs : batchSize ≤ 0
        · simp [streamUsersInBatchesTrace, hbs, balanced, acqCount,
            relCount, List.countP_cons, isAcq, isRel]
        · simpa [streamUsersInBatchesTrace, hbs] using
            hsu (.stopped ((k + 1) * batchSize.toNat))
    | drained =>
      by_cases hbs : batchSize ≤ 0
      · simp [streamUsersInBatchesTrace, hbs, balanced, acqCount,
          relCount, List.countP_cons, isAcq, isRel]
      · simpa [streamUsersInBatchesTrace, hbs] using hsu .drained
    | connRefused =>
      by_cases hbs : batchSize ≤ 0
      · simp [streamUsersInBatchesTrace, hbs, balanced, acqCount,
          relCount, List.countP_cons, isAcq, isRel]
      · simpa [streamUsersInBatchesTrace, hbs] using hsu .connRefused
    | queryFails k =>
      by_cases hbs : batchSize ≤ 0
      · simp [streamUsersInBatchesTrace, hbs, balanced, acqCount,
          relCount, List.countP_cons, isAcq, isRel]
      · simpa [streamUsersInBatchesTrace, hbs] using hsu (.queryFails k)
  · intro fate
    cases fate with
    | stopped k =>
      by_cases hk0 : k = 0
      · simp [streamUserDataTrace, hk0, balanced, acqCount, relCount]
      · by_cases hkn : k ≤ n <;>
          simp [streamUserDataTrace, hk0, hkn, balanced, acqCount, relCount,
            List.countP_append, countP_replicate_ev, List.countP_cons,
            isAcq, isRel]
    | _ =>
      simp [streamUserDataTrace, balanced, acqCount, relCount,
        List.countP_append, countP_replicate_ev, List.countP_cons,
        isAcq, isRel]
  · simp [lazyPaginationTrace, balanced, acqCount, relCount,
      countP_flatten_replicate, pagFetchOk, List.countP_cons, isAcq, isRel]
  · simp [lazyPaginationTrace, balanced, acqCount, relCount,
      countP_flatten_replicate, pagFetchOk, List.countP_cons, isAcq, isRel]
  · simp [lazyPaginationTrace, balanced, acqCount, relCount,
      List.countP_append, countP_flatten_replicate, pagFetchOk,
      List.countP_cons, isAcq, isRel]
  · simp [lazyPaginationTrace, balanced, acqCount, relCount,
      List.countP_append, countP_flatten_replicate, pagFetchOk,
      List.countP_cons, isAcq, isRel]
  · simp [streamUserAgesTrace, balanced, acqCount, relCount,
      List.countP_append, countP_replicate_ev, List.countP_cons,
      isAcq, isRel]
  · simp [streamUserAgesTrace, balanced, acqCount, relCount]
  · intro hk1 hkn
    have hk0 : ¬ k = 0 := by omega
    simp [streamUserAgesTrace, hk0, hkn, balanced, acqCount, relCount,
      List.countP_append, countP_replicate_ev, List.countP_cons,
      isAcq, isRel]
  · intro hnk
    have hk0 : ¬ k = 0 := by omega
    have hkn : ¬ k ≤ n := by omega
    simp [streamUserAgesTrace, hk0, hkn, balanced, acqCount, relCount,
      List.countP_append, countP_replicate_ev, List.countP_cons,
      isAcq, isRel]
  · simp [streamUserAgesTrace, balanced, acqCount, relCount,
      List.countP_append, countP_replicate_ev, List.countP_cons,
      isAcq, isRel]

/-- Witness for the amended C3 at two rows, one consumed value,
failure on the second fetch, one page, batch size two. -/
theorem resource_release_by_producer_witness :
    ((∀ fate : Fate, balanced (streamUsersTrace 2 fate) = true) ∧
      (∀ fate : Fate,
        balanced (streamUsersInBatchesTrace 2 2 fate) = true) ∧
      (∀ fate : Fate, balanced (streamUserDataTrace 2 fate) = true) ∧
      balanced (lazyPaginationTrace 1 .drained) = true ∧
      balanced (lazyPaginationTrace 1 (.stopped 1)) = true ∧
      balanced (lazyPaginationTrace 1 (.fetchConnRefused 1)) = true ∧
      balanced (lazyPaginationTrace 1 (.fetchQueryFails 1)) = false ∧
      balanced (streamUserAgesTrace 2 .drained) = true ∧
      balanced (streamUserAgesTrace 2 (.stopped 0)) = true ∧
      (1 ≤ 1 → 1 ≤ 2 → balanced (streamUserAgesTrace 2 (.stopped 1)) = false) ∧
      (2 < 1 → balanced (streamUserAgesTrace 2 (.stopped 1)) = true) ∧
      balanced (streamUserAgesTrace 2 (.queryFails 1)) = false) ∧
      1 ≤ 1 ∧ (1 : ℕ) ≤ 2 :=
  ⟨resource_release_by_producer 2 1 1 1 2, by decide, by decide⟩

/-- Counterexample to C9: on a query failure,
`seed.stream_user_data` swallows the store error — it prints it and
ends the stream without re-raising — and `seed.connect_to_prodev`
returns `None` after printing a connection error instead of raising. -/
theorem stream_user_data_swallows_store_error :
    (streamUserDataTrace 0 (.queryFails 0)).count .raiseErr = 0 ∧
      .printErr ∈ streamUserDataTrace 0 (.queryFails 0) ∧
      connect_to_prodev false = ([.printErr], none) := by
  decide

/-- C9 amended: `stream_users` releases its cursor and connection and
then re-raises every store failure; but `seed.stream_user_data`
catches query errors, prints them and ends the stream without
re-raising (its cursor is still closed), and `seed.connect_to_prodev`
swallows connection errors, printing them and returning `None`. -/
theorem store_error_propagation (n k : ℕ) :
    (∃ pre, streamUsersTrace n (.queryFails k) =
        pre ++ [.relCursor, .relConn, .raiseErr]) ∧
      streamUsersTrace n .connRefused = [.raiseErr] ∧
      .raiseErr ∉ streamUserDataTrace n (.queryFails k) ∧
      .printErr ∈ streamUserDataTrace n (.queryFails k) ∧
      .relCursor ∈ streamUserDataTrace n (.queryFails k) ∧
      connect_to_prodev false = ([.printErr], none) := by
  refine ⟨?_, rfl, ?_, ?_, ?_, rfl⟩
  · refine ⟨[.acqConn, .acqCursor, .execQuery] ++
      List.replicate (min k n) .yieldVal, ?_⟩
    simp [streamUsersTrace]
  · simp [streamUserDataTrace]
  · simp [streamUserDataTrace]
  · simp [streamUserDataTrace]

/-- Witness for the amended C9 at a single-row table with failure
after zero values. -/
theorem store_error_propagation_witness :
    ((∃ pre, streamUsersTrace 1 (.queryFails 0) =
        pre ++ [.relCursor, .relConn, .raiseErr]) ∧
      streamUsersTrace 1 .connRefused = [.raiseErr] ∧
      .raiseErr ∉ streamUserDataTrace 1 (.queryFails 0) ∧
      .printErr ∈ streamUserDataTrace 1 (.queryFails 0) ∧
      .relCursor ∈ streamUserDataTrace 1 (.queryFails 0) ∧
      connect_to_prodev false = ([.printErr], none)) ∧
      (0 : ℕ) ≤ 1 :=
  ⟨store_error_propagation 1 0, by decide⟩

/-- C5: with a non-positive batch size the batching operation fails
with `ValueError` before any iteration begins and before any store
I/O, and zero batches are yielded. -/
theorem batch_size_guard (rows : List Rec) (batchSize : ℤ)
    (h : batchSize ≤ 0) :
    stream_users_in_batches rows batchSize =
        .error "ValueError: batch_size must be > 0" ∧
      (∀ batches, stream_users_in_batches rows batchSize ≠ .ok batches) ∧
      firstNext rows (stream_users_in_batchesCall batchSize) =
        ([], .raised "ValueError: batch_size must be > 0") ∧
      (firstNext rows (stream_users_in_batchesCall batchSize)).1.countP
        (fun e => isStoreEv e) = 0 := by
  refine ⟨by simp [stream_users_in_batches, h], ?_, ?_, ?_⟩
  · intro batches hb
    simp [stream_users_in_batches, h] at hb
  · simp [firstNext, stream_users_in_batchesCall, h]
  · simp [firstNext, stream_users_in_batchesCall, h]

/-- Witness for C5 at the sample table and batch size 0. -/
theorem batch_size_guard_witness :
    (0 : ℤ) ≤ 0 ∧
      (stream_users_in_batches sampleRows 0 =
          .error "ValueError: batch_size must be > 0" ∧
        (∀ batches, stream_users_in_batches sampleRows 0 ≠ .ok batches) ∧
        firstNext sampleRows (stream_users_in_batchesCall 0) =
          ([], .raised "ValueError: batch_size must be > 0") ∧
        (firstNext sampleRows (stream_users_in_batchesCall 0)).1.countP
          (fun e => isStoreEv e) = 0) :=
  ⟨by decide, batch_size_guard sampleRows 0 (by decide)⟩

/-- C10: calling `stream_users_in_batches` with a non-positive batch
size does not raise at call time — the call just returns the generator
object — and the `ValueError` is raised on the consumer's first
resume, before any store connection is opened. -/
theorem batch_size_guard_deferred (rows : List Rec) (batchSize : ℤ)
    (h : batchSize ≤ 0) :
    stream_users_in_batchesCall batchSize = { batchSize := batchSize } ∧
      (firstNext rows (stream_users_in_batchesCall batchSize)).2 =
        .raised "ValueError: batch_size must be > 0" ∧
      .acqConn ∉ (firstNext rows (stream_users_in_batchesCall batchSize)).1 ∧
      streamUsersInBatchesTrace rows.length batchSize .drained =
        [.raiseErr] := by
  refine ⟨rfl, ?_, ?_, ?_⟩
  · simp [firstNext, stream_users_in_batchesCall, h]
  · simp [firstNext, stream_users_in_batchesCall, h]
  · simp [streamUsersInBatchesTrace, h]

/-- Witness for C10 at the sample table and batch size -1. -/
theorem batch_size_guard_deferred_witness :
    (-1 : ℤ) ≤ 0 ∧
      (stream_users_in_batchesCall (-1) = { batchSize := (-1 : ℤ) } ∧
        (firstNext sampleRows (stream_users_in_batchesCall (-1))).2 =
          .raised "ValueError: batch_size must be > 0" ∧
        .acqConn ∉ (firstNext sampleRows (stream_users_in_batchesCall (-1))).1 ∧
        streamUsersInBatchesTrace sampleRows.length (-1) .drained =
          [.raiseErr]) :=
  ⟨by decide, batch_size_guard_deferred sampleRows (-1) (by decide)⟩

end PyGen
